import Mathlib

/-!
Verification development for the plugin/task dispatch core of the
cloudflare-manager repository.

The embedding covers:
* the `PluginRegistry` (register / unregister / lookup / executeTask) from the
  registry source file;
* the concrete workers tasks (create / update / delete / query) and the KV
  bulk-write / bulk-delete tasks, modelled as computations in a small
  trace-collecting monad whose events record every progress report and every
  call into the external API capability;
* the event bus `emit` path with synchronous and detached handlers.

JavaScript `Map` objects are modelled as insertion-ordered association lists
with first-occurrence lookup; `JSON.parse` is modelled by an executable
recursive-descent parser over the JSON value grammar (integers instead of
IEEE floats, and without \uXXXX escapes, neither of which any claim touches).
Display metadata (labels, descriptions, form schemas) carried by plugins is
omitted: no claim mentions it and the registry never inspects it.
-/

/-- JavaScript values produced by `JSON.parse` and carried in task data. -/
inductive JVal where
  | undefined
  | null
  | bool (b : Bool)
  | num (n : Int)
  | str (s : String)
  | arr (xs : List JVal)
  | obj (fields : List (String × JVal))

/-- `true` exactly on JSON arrays (the "expected shape" of bulk payloads). -/
def JVal.isArr : JVal → Bool
  | .arr _ => true
  | _ => false

/-- JavaScript `x.length`: defined for arrays and strings, `undefined` otherwise. -/
def jsLength : JVal → JVal
  | .arr xs => .num xs.length
  | .str s => .num s.length
  | _ => .undefined

/-- Property lookup on a JSON object (`none` when the field is absent or the
value is not an object). -/
def jlookup : JVal → String → Option JVal
  | .obj fields, k => (fields.find? (fun p => p.1 == k)).map (fun p => p.2)
  | _, _ => none

/-- Skip JSON whitespace. -/
def skipWs : List Char → List Char
  | [] => []
  | c :: rest =>
    if c = ' ' ∨ c = '\n' ∨ c = '\t' ∨ c = '\r' then skipWs rest else c :: rest

/-- Translate a character following a backslash in a JSON string literal. -/
def unescapeChar (c : Char) : Char :=
  if c = 'n' then '\n' else if c = 't' then '\t' else if c = 'r' then '\r' else c

/-- Parse the remainder of a JSON string literal (opening quote consumed),
returning the decoded characters and the rest of the input. -/
def parseStrChars : Nat → List Char → Option (List Char × List Char)
  | 0, _ => none
  | _ + 1, [] => none
  | fuel + 1, c :: rest =>
    if c = '"' then some ([], rest)
    else if c = '\\' then
      match rest with
      | [] => none
      | e :: rest2 =>
        (parseStrChars fuel rest2).map (fun p => (unescapeChar e :: p.1, p.2))
    else (parseStrChars fuel rest).map (fun p => (c :: p.1, p.2))

/-- Leading decimal digits of the input, and the rest. -/
def takeDigits : List Char → List Char × List Char
  | [] => ([], [])
  | c :: rest =>
    if c.isDigit then
      let p := takeDigits rest
      (c :: p.1, p.2)
    else ([], c :: rest)

/-- Numeric value of a digit string. -/
def charsToNat (acc : Nat) : List Char → Nat
  | [] => acc
  | c :: rest => charsToNat (acc * 10 + (c.toNat - '0'.toNat)) rest

mutual

/-- Parse one JSON value; `fuel` bounds recursion depth. -/
def parseVal : Nat → List Char → Option (JVal × List Char)
  | 0, _ => none
  | fuel + 1, cs =>
    match skipWs cs with
    | [] => none
    | 'n' :: 'u' :: 'l' :: 'l' :: rest => some (.null, rest)
    | 't' :: 'r' :: 'u' :: 'e' :: rest => some (.bool true, rest)
    | 'f' :: 'a' :: 'l' :: 's' :: 'e' :: rest => some (.bool false, rest)
    | '"' :: rest =>
      (parseStrChars fuel rest).map (fun p => (.str (String.mk p.1), p.2))
    | '[' :: rest =>
      match skipWs rest with
      | ']' :: rest2 => some (.arr [], rest2)
      | rest2 => (parseItems fuel rest2).map (fun p => (.arr p.1, p.2))
    | '\x7b' :: rest =>
      match skipWs rest with
      | '\x7d' :: rest2 => some (.obj [], rest2)
      | rest2 => (parseMembers fuel rest2).map (fun p => (.obj p.1, p.2))
    | '-' :: rest =>
      match takeDigits rest with
      | ([], _) => none
      | (ds, rest2) => some (.num (-(charsToNat 0 ds : Int)), rest2)
    | c :: rest =>
      if c.isDigit then
        let p := takeDigits (c :: rest)
        some (.num (charsToNat 0 p.1 : Int), p.2)
      else none

/-- Parse a nonempty comma-separated list of values up to `]`. -/
def parseItems : Nat → List Char → Option (List JVal × List Char)
  | 0, _ => none
  | fuel + 1, cs =>
    match parseVal fuel cs with
    | none => none
    | some (v, rest) =>
      match skipWs rest with
      | ',' :: rest2 => (parseItems fuel rest2).map (fun p => (v :: p.1, p.2))
      | ']' :: rest2 => some ([v], rest2)
      | _ => none

/-- Parse a nonempty comma-separated list of object members up to the closing
brace. -/
def parseMembers : Nat → List Char → Option (List (String × JVal) × List Char)
  | 0, _ => none
  | fuel + 1, cs =>
    match skipWs cs with
    | '"' :: rest =>
      match parseStrChars fuel rest with
      | none => none
      | some (kcs, rest2) =>
        match skipWs rest2 with
        | ':' :: rest3 =>
          match parseVal fuel rest3 with
          | none => none
          | some (v, rest4) =>
            match skipWs rest4 with
            | ',' :: rest5 =>
              (parseMembers fuel rest5).map
                (fun p => ((String.mk kcs, v) :: p.1, p.2))
            | '\x7d' :: rest5 => some ([(String.mk kcs, v)], rest5)
            | _ => none
        | _ => none
    | _ => none

end

/-- Model of JavaScript `JSON.parse`: `some` on success. The code under
verification discards the thrown `SyntaxError`, so failures carry no data. -/
def jsonParse (s : String) : Option JVal :=
  match parseVal (s.length + 1) s.data with
  | some (v, rest) => if (skipWs rest).isEmpty then some v else none
  | none => none

/-- `charsStartWith s pat`: `pat` is a prefix of `s`. -/
def charsStartWith : List Char → List Char → Bool
  | _, [] => true
  | [], _ :: _ => false
  | c :: cs, p :: ps => c == p && charsStartWith cs ps

/-- `charsContain pat s`: `pat` occurs contiguously inside `s`. -/
def charsContain (pat : List Char) : List Char → Bool
  | [] => charsStartWith [] pat
  | c :: rest => charsStartWith (c :: rest) pat || charsContain pat rest

/-- Substring test on strings (JavaScript `String.prototype.includes`). -/
def strContainsSub (s pat : String) : Bool :=
  charsContain pat.data s.data

/-- A thrown/rejected JavaScript error, reduced to its `message` property
(the only part the code under verification reads). -/
structure JsError where
  message : String
deriving DecidableEq

/-- The uniform task outcome `{success, data?, error?}`. -/
structure TaskResult where
  success : Bool
  data : Option JVal
  error : Option String

/-- A `TaskProgress` notification `{step, current, total}`. -/
structure TaskProgress where
  step : String
  current : Nat
  total : Nat

/-- One call into the external cloud API capability, with its arguments. -/
inductive ApiCall where
  | listWorkers
  | getSubdomain
  | createWorker (name : String)
  | uploadWorkerScript (workerId name script compatibilityDate : String) (bindings : JVal)
  | deployWorker (name versionId : String)
  | deleteWorker (id : String)
  | bulkWriteKV (namespaceId : String) (pairs : JVal)
  | bulkDeleteKV (namespaceId : String) (keys : JVal)

/-- Observable effect of a task execution: a progress report through the
context, or a call into the external API capability. -/
inductive Event where
  | progress (p : TaskProgress)
  | api (c : ApiCall)

/-- Trace-collecting computation with JavaScript-style exceptions: the model
of a task's `async execute` body.  The trace records effects in program
order; a thrown error aborts the computation but keeps the trace. -/
def TaskM (α : Type) : Type := List Event → Except JsError α × List Event

def tpure {α : Type} (a : α) : TaskM α := fun tr => (.ok a, tr)

def tbind {α β : Type} (x : TaskM α) (f : α → TaskM β) : TaskM β := fun tr =>
  match x tr with
  | (.ok a, tr1) => f a tr1
  | (.error e, tr1) => (.error e, tr1)

instance : Monad TaskM where
  pure := tpure
  bind := tbind

/-- `context.updateProgress(p)`. -/
def updateProgressE (p : TaskProgress) : TaskM Unit := fun tr =>
  (.ok (), tr ++ [Event.progress p])

/-- `await api.<op>(...)`: the call is recorded on the trace, then its outcome
(value or thrown error) is propagated. -/
def apiCall {α : Type} (c : ApiCall) (r : Except JsError α) : TaskM α := fun tr =>
  (r, tr ++ [Event.api c])

/-- Run a task body from the empty trace. -/
def runTask {α : Type} (x : TaskM α) : Except JsError α × List Event := x []

/-! ## Plugin registry

Translated from the `PluginRegistry` class.  JavaScript `Map`s become
insertion-ordered association lists; `register`'s loop over
`plugin.getTaskTypes()` becomes a fold. -/

/-- Per-invocation context as the registry sees it: opaque data passed through
to the handler.  (The registry never inspects the context.) -/
structure TaskContext where
  config : JVal

/-- Outcome of invoking a handler's `execute(context)`: a returned
`TaskResult`, or a thrown/rejected error. -/
inductive ExecOutcome where
  | ok (r : TaskResult)
  | thrown (e : JsError)

/-- A task definition as indexed by the registry: its `type` string and its
`execute` operation (display metadata omitted; the registry never reads it). -/
structure TaskTypeDefinition where
  type : String
  execute : TaskContext → ExecOutcome

/-- A resource plugin as the registry sees it.  `taskTypes` is the (constant)
value of `getTaskTypes()`. -/
structure ResourcePlugin where
  name : String
  resourceType : String
  taskTypes : List TaskTypeDefinition

/-- `Map.prototype.get`: value at the first (unique) matching key. -/
def mapGet {α : Type} : List (String × α) → String → Option α
  | [], _ => none
  | (k1, v1) :: rest, k => if k1 = k then some v1 else mapGet rest k

/-- `Map.prototype.set`: replace in place, or append a new entry. -/
def mapSet {α : Type} : List (String × α) → String → α → List (String × α)
  | [], k, v => [(k, v)]
  | (k1, v1) :: rest, k, v =>
    if k1 = k then (k, v) :: rest else (k1, v1) :: mapSet rest k v

/-- `Map.prototype.delete` (dropping the returned boolean, which the code
ignores). -/
def mapDelete {α : Type} : List (String × α) → String → List (String × α)
  | [], _ => []
  | (k1, v1) :: rest, k =>
    if k1 = k then mapDelete rest k else (k1, v1) :: mapDelete rest k

/-- Registry state: the `plugins` map and the `taskHandlers` index. -/
structure PluginRegistry where
  plugins : List (String × ResourcePlugin)
  taskHandlers : List (String × TaskTypeDefinition)

/-- The loop in `register` that indexes every declared task definition under
its composite key `resourceType:type`. -/
def indexTasks (rt : String) (ts : List TaskTypeDefinition)
    (m : List (String × TaskTypeDefinition)) : List (String × TaskTypeDefinition) :=
  ts.foldl (fun acc t => mapSet acc (rt ++ ":" ++ t.type) t) m

/-- `register(plugin)`. -/
def register (reg : PluginRegistry) (p : ResourcePlugin) : PluginRegistry :=
  { plugins := mapSet reg.plugins p.resourceType p
    taskHandlers := indexTasks p.resourceType p.taskTypes reg.taskHandlers }

/-- The loop in `unregister` that removes every composite key derived from
the plugin being removed. -/
def removeTasks (rt : String) (ts : List TaskTypeDefinition)
    (m : List (String × TaskTypeDefinition)) : List (String × TaskTypeDefinition) :=
  ts.foldl (fun acc t => mapDelete acc (rt ++ ":" ++ t.type)) m

/-- `unregister(resourceType)`: returned boolean paired with the new state. -/
def unregister (reg : PluginRegistry) (resourceType : String) :
    Bool × PluginRegistry :=
  match mapGet reg.plugins resourceType with
  | none => (false, reg)
  | some p =>
    (true,
      { plugins := mapDelete reg.plugins resourceType
        taskHandlers := removeTasks resourceType p.taskTypes reg.taskHandlers })

/-- `getPlugin(resourceType)`. -/
def getPlugin (reg : PluginRegistry) (resourceType : String) : Option ResourcePlugin :=
  mapGet reg.plugins resourceType

/-- `getAllPlugins()`. -/
def getAllPlugins (reg : PluginRegistry) : List ResourcePlugin :=
  reg.plugins.map Prod.snd

/-- `getTaskHandler(taskType)`. -/
def getTaskHandler (reg : PluginRegistry) (taskType : String) : Option TaskTypeDefinition :=
  mapGet reg.taskHandlers taskType

/-- `getAllTaskTypes()` (the entry list `{type, definition}` as pairs). -/
def getAllTaskTypes (reg : PluginRegistry) : List (String × TaskTypeDefinition) :=
  reg.taskHandlers

/-- `hasTaskType(taskType)`. -/
def hasTaskType (reg : PluginRegistry) (taskType : String) : Bool :=
  (mapGet reg.taskHandlers taskType).isSome

/-- The `try { return await handler.execute(context) } catch` block:
a thrown error becomes `{success:false, error: error.message || '任务执行失败'}`
(`||` takes the fallback exactly when the message is the empty string). -/
def runHandler (handler : TaskTypeDefinition) (context : TaskContext) : TaskResult :=
  match handler.execute context with
  | .ok r => r
  | .thrown e =>
    { success := false
      data := none
      error := some (if e.message = "" then "任务执行失败" else e.message) }

/-- `executeTask(taskType, context)`.  Totality of this function is the
embedding of "never throws past the registry boundary". -/
def executeTask (reg : PluginRegistry) (taskType : String) (context : TaskContext) :
    TaskResult :=
  match mapGet reg.taskHandlers taskType with
  | none =>
    { success := false, data := none, error := some ("未知的任务类型: " ++ taskType) }
  | some handler => runHandler handler context

/-! ## Workers plugin tasks

Translated from the workers plugin source.  The external API capability is a
record of call outcomes; the configuration object is a record of the fields
the tasks read. -/

/-- A worker entry as returned by `api.listWorkers()`. -/
structure WInfo where
  id : String
  created_on : String
  modified_on : String
  etag : String

/-- Outcomes of the external API operations the workers tasks perform. -/
structure WorkersApi where
  listWorkers : Except JsError (List WInfo)
  getSubdomain : Except JsError String
  createWorker : String → Except JsError String
  uploadWorkerScript : String → String → String → String → JVal → Except JsError String
  deployWorker : String → String → Except JsError String
  deleteWorker : String → Except JsError Unit

/-- The configuration fields read by the workers tasks
(`workerName`, `script`, `compatibilityDate`, `bindings`). -/
structure WorkersConfig where
  workerName : String
  script : String
  compatibilityDate : String
  bindings : JVal

/-- The worker URL `https://<name>.<subdomain>.workers.dev`. -/
def workerUrl (name subdomain : String) : String :=
  "https://" ++ name ++ "." ++ subdomain ++ ".workers.dev"

/-- `createTaskType.execute`: the three-step creation orchestration. -/
def createWorkerExecute (cfg : WorkersConfig) (api : WorkersApi) : TaskM TaskResult := do
  updateProgressE { step := "创建 Worker", current := 1, total := 3 }
  let workerId ← apiCall (.createWorker cfg.workerName) (api.createWorker cfg.workerName)
  updateProgressE { step := "上传脚本", current := 2, total := 3 }
  let versionId ←
    apiCall (.uploadWorkerScript workerId cfg.workerName cfg.script cfg.compatibilityDate cfg.bindings)
      (api.uploadWorkerScript workerId cfg.workerName cfg.script cfg.compatibilityDate cfg.bindings)
  updateProgressE { step := "部署", current := 3, total := 3 }
  let deploymentId ←
    apiCall (.deployWorker cfg.workerName versionId) (api.deployWorker cfg.workerName versionId)
  let subdomain ← apiCall .getSubdomain api.getSubdomain
  pure
    { success := true
      data := some (.obj
        [("workerId", .str workerId), ("versionId", .str versionId),
         ("deploymentId", .str deploymentId), ("url", .str (workerUrl cfg.workerName subdomain))])
      error := none }

/-- `updateTaskType.execute`: look the worker up by name, then upload and
deploy. -/
def updateWorkerExecute (cfg : WorkersConfig) (api : WorkersApi) : TaskM TaskResult := do
  updateProgressE { step := "查找 Worker", current := 1, total := 3 }
  let workers ← apiCall .listWorkers api.listWorkers
  match workers.find? (fun w => w.id == cfg.workerName) with
  | none =>
    pure { success := false, data := none,
           error := some ("Worker " ++ cfg.workerName ++ " not found") }
  | some worker => do
    updateProgressE { step := "上传新脚本", current := 2, total := 3 }
    let versionId ←
      apiCall (.uploadWorkerScript worker.id cfg.workerName cfg.script cfg.compatibilityDate cfg.bindings)
        (api.uploadWorkerScript worker.id cfg.workerName cfg.script cfg.compatibilityDate cfg.bindings)
    updateProgressE { step := "部署新版本", current := 3, total := 3 }
    let deploymentId ←
      apiCall (.deployWorker cfg.workerName versionId) (api.deployWorker cfg.workerName versionId)
    pure
      { success := true
        data := some (.obj [("versionId", .str versionId), ("deploymentId", .str deploymentId)])
        error := none }

/-- `deleteTaskType.execute`: look the worker up by name, then delete it. -/
def deleteWorkerExecute (cfg : WorkersConfig) (api : WorkersApi) : TaskM TaskResult := do
  updateProgressE { step := "查找 Worker", current := 1, total := 2 }
  let workers ← apiCall .listWorkers api.listWorkers
  match workers.find? (fun w => w.id == cfg.workerName) with
  | none =>
    pure { success := false, data := none,
           error := some ("Worker " ++ cfg.workerName ++ " not found") }
  | some worker => do
    updateProgressE { step := "删除 Worker", current := 2, total := 2 }
    apiCall (.deleteWorker worker.id) (api.deleteWorker worker.id)
    pure { success := true, data := some (.obj [("deleted", .bool true)]), error := none }

/-- `queryTaskType.execute`: look the worker up by name; report
`{found:false}` when absent. -/
def queryWorkerExecute (cfg : WorkersConfig) (api : WorkersApi) : TaskM TaskResult := do
  updateProgressE { step := "查询 Worker", current := 1, total := 2 }
  let workers ← apiCall .listWorkers api.listWorkers
  match workers.find? (fun w => w.id == cfg.workerName) with
  | none =>
    pure { success := true, data := some (.obj [("found", .bool false)]), error := none }
  | some worker => do
    updateProgressE { step := "获取子域", current := 2, total := 2 }
    let subdomain ← apiCall .getSubdomain api.getSubdomain
    pure
      { success := true
        data := some (.obj
          [("found", .bool true),
           ("worker", .obj
             [("id", .str worker.id), ("created_on", .str worker.created_on),
              ("modified_on", .str worker.modified_on), ("etag", .str worker.etag)]),
           ("url", .str (workerUrl cfg.workerName subdomain))])
        error := none }

/-! ## KV plugin bulk tasks -/

/-- Outcomes of the external API operations the KV bulk tasks perform. -/
structure KvApi where
  bulkWriteKV : String → JVal → Except JsError Unit
  bulkDeleteKV : String → JVal → Except JsError Unit

/-- Configuration of the KV `bulk_write` task. -/
structure BulkWriteConfig where
  namespaceId : String
  kvPairs : String

/-- Configuration of the KV `bulk_delete` task. -/
structure BulkDeleteConfig where
  namespaceId : String
  keys : String

/-- `bulkWriteTask.execute`: parse `config.kvPairs`; on failure return the
invalid-format result before any external call, otherwise perform the one
bulk call.  Note the code performs no shape check on the parsed value. -/
def bulkWriteExecute (cfg : BulkWriteConfig) (api : KvApi) : TaskM TaskResult := do
  match jsonParse cfg.kvPairs with
  | none => pure { success := false, data := none, error := some "无效的 JSON 格式" }
  | some kvPairs => do
    updateProgressE { step := "批量写入 KV", current := 1, total := 1 }
    apiCall (.bulkWriteKV cfg.namespaceId kvPairs) (api.bulkWriteKV cfg.namespaceId kvPairs)
    pure
      { success := true
        data := some (.obj [("count", jsLength kvPairs), ("written", .bool true)])
        error := none }

/-- `bulkDeleteTask.execute`: same structure over `config.keys`. -/
def bulkDeleteExecute (cfg : BulkDeleteConfig) (api : KvApi) : TaskM TaskResult := do
  match jsonParse cfg.keys with
  | none => pure { success := false, data := none, error := some "无效的 JSON 格式" }
  | some keys => do
    updateProgressE { step := "批量删除 KV", current := 1, total := 1 }
    apiCall (.bulkDeleteKV cfg.namespaceId keys) (api.bulkDeleteKV cfg.namespaceId keys)
    pure
      { success := true
        data := some (.obj [("count", jsLength keys), ("deleted", .bool true)])
        error := none }

/-! ## Event bus

Translated from `EventBusImpl`.  A handler's invocation behaviour on a given
payload is one of: return normally (covering both `void` and a resolved
promise), throw synchronously, or return a promise that rejects.  `emit`
first drives the Node emitter's synchronous listeners in order (a throw there
propagates immediately), then the detached handlers: each is invoked and its
result wrapped as `Promise.resolve(handler(payload)).catch(log)` — so a
rejected promise is caught and logged, while a synchronous throw happens
before `Promise.resolve` can wrap it and escapes `emit`. -/

/-- Behaviour of one handler invocation. -/
inductive HandlerAct where
  | ret
  | throwSync (e : JsError)
  | rejectAsync (e : JsError)
deriving DecidableEq

/-- `true` exactly on synchronous throws. -/
def HandlerAct.isThrowSync : HandlerAct → Bool
  | .throwSync _ => true
  | _ => false

/-- A registered handler: an identity (JavaScript function identity) and its
behaviour as a function of the payload. -/
structure EvHandler where
  hid : Nat
  run : JVal → HandlerAct

/-- Observable emit-side event: a handler invocation, or a `console.error`
log of a caught detached failure. -/
inductive EmitEv where
  | invoked (hid : Nat)
  | logged (msg : String) (e : JsError)
deriving DecidableEq

/-- The `console.error` message used for caught detached failures. -/
def asyncLogMsg (kind : String) : String :=
  "事件处理器错误 [" ++ kind ++ "]:"

/-- The Node emitter's synchronous delivery loop: in registration order; a
listener's synchronous throw propagates and stops delivery.  A listener that
returns a (possibly rejecting) promise is not awaited: delivery continues. -/
def runSyncHandlers (payload : JVal) :
    List EvHandler → List EmitEv → Except JsError Unit × List EmitEv
  | [], tr => (.ok (), tr)
  | h :: rest, tr =>
    match h.run payload with
    | .throwSync e => (.error e, tr ++ [.invoked h.hid])
    | _ => runSyncHandlers payload rest (tr ++ [.invoked h.hid])

/-- The detached-delivery loop `Promise.resolve(handler(payload)).catch(log)`:
a rejection is caught and logged and the loop continues; a synchronous throw
escapes before the `catch` is attached. -/
def runAsyncHandlers (kind : String) (payload : JVal) :
    List EvHandler → List EmitEv → Except JsError Unit × List EmitEv
  | [], tr => (.ok (), tr)
  | h :: rest, tr =>
    match h.run payload with
    | .ret => runAsyncHandlers kind payload rest (tr ++ [.invoked h.hid])
    | .throwSync e => (.error e, tr ++ [.invoked h.hid])
    | .rejectAsync e =>
      runAsyncHandlers kind payload rest
        (tr ++ [.invoked h.hid, .logged (asyncLogMsg kind) e])

/-- Event bus state: synchronous listeners (the wrapped `EventEmitter`) and
the detached handler sets, per event kind. -/
structure EventBus where
  syncListeners : List (String × List EvHandler)
  asyncHandlers : List (String × List EvHandler)

/-- Handlers registered for a kind (empty when none). -/
def busHandlers (m : List (String × List EvHandler)) (kind : String) : List EvHandler :=
  (mapGet m kind).getD []

/-- `emit(type, payload)`: synchronous delivery, then detached delivery.
The `Except` outcome is what the caller of `emit` observes. -/
def emitBus (bus : EventBus) (kind : String) (payload : JVal) :
    Except JsError Unit × List EmitEv :=
  match runSyncHandlers payload (busHandlers bus.syncListeners kind) [] with
  | (.ok _, tr) => runAsyncHandlers kind payload (busHandlers bus.asyncHandlers kind) tr
  | (.error e, tr) => (.error e, tr)

/-! ## Concrete instances used to evaluate the theorems -/

/-- A concrete task context. -/
def ctx0 : TaskContext := { config := .null }

/-- The registry before any registration. -/
def emptyRegistry : PluginRegistry := { plugins := [], taskHandlers := [] }

/-- Result returned by the sample task of plugin `pA`. -/
def resOkA : TaskResult := { success := true, data := some (.str "A"), error := none }

/-- Result returned by the sample task of plugin `pB`. -/
def resOkB : TaskResult := { success := true, data := some (.str "B"), error := none }

/-- A task whose `execute` throws an error with message `boom`. -/
def boomTask : TaskTypeDefinition :=
  { type := "boom", execute := fun _ => .thrown { message := "boom" } }

/-- Registry holding `boomTask` under the composite key `w:boom`. -/
def regBoom : PluginRegistry := { plugins := [], taskHandlers := [("w:boom", boomTask)] }

/-- A task whose `execute` throws an error whose message is the empty string. -/
def emptyMsgTask : TaskTypeDefinition :=
  { type := "t", execute := fun _ => .thrown { message := "" } }

/-- Registry holding `emptyMsgTask` under the composite key `w:t`. -/
def regEmptyMsg : PluginRegistry :=
  { plugins := [], taskHandlers := [("w:t", emptyMsgTask)] }

/-- Task `t` as declared by plugin `pA`. -/
def taskA : TaskTypeDefinition := { type := "t", execute := fun _ => .ok resOkA }

/-- Task `t` as declared by plugin `pB` (same type string, different handler). -/
def taskB : TaskTypeDefinition := { type := "t", execute := fun _ => .ok resOkB }

/-- Task `u`, declared only by plugin `pBu`. -/
def taskU : TaskTypeDefinition := { type := "u", execute := fun _ => .ok resOkB }

/-- Sample plugin `A` under resource type `res`, declaring task `t`. -/
def pA : ResourcePlugin := { name := "A", resourceType := "res", taskTypes := [taskA] }

/-- Sample plugin `B` under resource type `res`, also declaring task `t`. -/
def pB : ResourcePlugin := { name := "B", resourceType := "res", taskTypes := [taskB] }

/-- Sample plugin sharing `res` but declaring only task `u`. -/
def pBu : ResourcePlugin := { name := "B", resourceType := "res", taskTypes := [taskU] }

/-- A worker named `bar`, the only worker the sample API lists. -/
def wBar : WInfo := { id := "bar", created_on := "c", modified_on := "m", etag := "e" }

/-- A workers API in which every call succeeds; `listWorkers` knows only
`bar`. -/
def apiOkW : WorkersApi :=
  { listWorkers := .ok [wBar]
    getSubdomain := .ok "acct"
    createWorker := fun _ => .ok "wid-1"
    uploadWorkerScript := fun _ _ _ _ _ => .ok "ver-1"
    deployWorker := fun _ _ => .ok "dep-1"
    deleteWorker := fun _ => .ok () }

/-- Configuration naming the worker `foo` (absent from `apiOkW`'s listing). -/
def cfgFoo : WorkersConfig :=
  { workerName := "foo", script := "<script>", compatibilityDate := "2025-01-01",
    bindings := .null }

/-- A KV API in which both bulk calls succeed. -/
def kvApi0 : KvApi :=
  { bulkWriteKV := fun _ _ => .ok (), bulkDeleteKV := fun _ _ => .ok () }

/-- Bulk-write configuration whose `kvPairs` field is not JSON. -/
def cfgBadWrite : BulkWriteConfig := { namespaceId := "ns", kvPairs := "not json" }

/-- Bulk-delete configuration whose `keys` field is not JSON. -/
def cfgBadDelete : BulkDeleteConfig := { namespaceId := "ns", keys := "not json" }

/-- Bulk-write configuration whose `kvPairs` field is the JSON number `5`. -/
def cfgNumWrite : BulkWriteConfig := { namespaceId := "ns", kvPairs := "5" }

/-- Bulk-delete configuration whose `keys` field is the JSON number `5`. -/
def cfgNumDelete : BulkDeleteConfig := { namespaceId := "ns", keys := "5" }

/-- Detached handler (identity 1) that throws synchronously. -/
def hThrow : EvHandler := { hid := 1, run := fun _ => .throwSync { message := "boom" } }

/-- Handler (identity 2) that returns normally. -/
def hRet2 : EvHandler := { hid := 2, run := fun _ => .ret }

/-- Bus with two detached handlers for `job:created`: a synchronously
throwing one, then a well-behaved one. -/
def busCex : EventBus :=
  { syncListeners := [], asyncHandlers := [("job:created", [hThrow, hRet2])] }

/-- Synchronous handler (identity 3) that returns normally. -/
def hSync3 : EvHandler := { hid := 3, run := fun _ => .ret }

/-- Detached handler (identity 4) whose returned promise rejects. -/
def hRej4 : EvHandler := { hid := 4, run := fun _ => .rejectAsync { message := "bad" } }

/-- Bus with one synchronous and two detached handlers (one rejecting). -/
def busW : EventBus :=
  { syncListeners := [("job:created", [hSync3])]
    asyncHandlers := [("job:created", [hRet2, hRej4])] }

/-! ## Helper lemmas -/

theorem taskBind_eq {α β : Type} (x : TaskM α) (f : α → TaskM β) :
    Bind.bind x f = tbind x f := rfl

theorem taskPure_eq {α : Type} (a : α) : (Pure.pure a : TaskM α) = tpure a := rfl

theorem mapGet_mapSet_self {α : Type} (m : List (String × α)) (k : String) (v : α) :
    mapGet (mapSet m k v) k = some v := by
  induction m with
  | nil => simp [mapSet, mapGet]
  | cons p rest ih =>
    by_cases h : p.1 = k
    · simp [mapSet, mapGet, h]
    · simp [mapSet, mapGet, h, ih]

theorem mapGet_mapSet_ne {α : Type} (m : List (String × α)) (k k2 : String) (v : α)
    (h : k2 ≠ k) : mapGet (mapSet m k v) k2 = mapGet m k2 := by
  have hkk : ¬ k = k2 := fun he => h he.symm
  induction m with
  | nil => simp [mapSet, mapGet, hkk]
  | cons p rest ih =>
    by_cases hp : p.1 = k
    · simp [mapSet, mapGet, hp, hkk, h]
    · by_cases hp2 : p.1 = k2
      · simp [mapSet, mapGet, hp, hp2, hkk, h]
      · simp [mapSet, mapGet, hp, hp2, ih]

theorem mapGet_mapDelete_self {α : Type} (m : List (String × α)) (k : String) :
    mapGet (mapDelete m k) k = none := by
  induction m with
  | nil => simp [mapDelete, mapGet]
  | cons p rest ih =>
    by_cases h : p.1 = k
    · simp [mapDelete, h, ih]
    · simp [mapDelete, mapGet, h, ih]

theorem mapGet_mapDelete_ne {α : Type} (m : List (String × α)) (k k2 : String)
    (h : k2 ≠ k) : mapGet (mapDelete m k) k2 = mapGet m k2 := by
  induction m with
  | nil => simp [mapDelete]
  | cons p rest ih =>
    have hkk : ¬ k = k2 := fun he => h he.symm
    by_cases hp : p.1 = k
    · simp [mapDelete, mapGet, hp, hkk, h, ih]
    · by_cases hp2 : p.1 = k2
      · simp [mapDelete, mapGet, hp, hp2, hkk, h, ih]
      · simp [mapDelete, mapGet, hp, hp2, ih]

theorem strData_inj (s t : String) (h : s.data = t.data) : s = t := by
  cases s; cases t; exact congrArg String.mk h

theorem strAppend_left_cancel (s a b : String) (h : s ++ a = s ++ b) : a = b := by
  have hd := congrArg String.data h
  rw [String.data_append, String.data_append] at hd
  exact strData_inj a b (List.append_cancel_left hd)

theorem compositeKey_inj (rt a b : String) (h : rt ++ ":" ++ a = rt ++ ":" ++ b) :
    a = b :=
  strAppend_left_cancel (rt ++ ":") a b h

theorem indexTasks_nil (rt : String) (m : List (String × TaskTypeDefinition)) :
    indexTasks rt [] m = m := rfl

theorem indexTasks_cons (rt : String) (t : TaskTypeDefinition)
    (ts : List TaskTypeDefinition) (m : List (String × TaskTypeDefinition)) :
    indexTasks rt (t :: ts) m = indexTasks rt ts (mapSet m (rt ++ ":" ++ t.type) t) := rfl

theorem indexTasks_get_notMem (rt : String) (ts : List TaskTypeDefinition)
    (m : List (String × TaskTypeDefinition)) (key : String)
    (h : ∀ t ∈ ts, rt ++ ":" ++ t.type ≠ key) :
    mapGet (indexTasks rt ts m) key = mapGet m key := by
  induction ts generalizing m with
  | nil => rfl
  | cons t rest ih =>
    rw [indexTasks_cons, ih _ (fun u hu => h u (List.mem_cons_of_mem t hu))]
    exact mapGet_mapSet_ne m (rt ++ ":" ++ t.type) key t
      (fun he => h t (List.mem_cons_self t rest) he.symm)

theorem indexTasks_get_of_mem (rt : String) (ts : List TaskTypeDefinition)
    (m : List (String × TaskTypeDefinition)) (td : TaskTypeDefinition)
    (hnd : (ts.map TaskTypeDefinition.type).Nodup) (hmem : td ∈ ts) :
    mapGet (indexTasks rt ts m) (rt ++ ":" ++ td.type) = some td := by
  induction ts generalizing m with
  | nil => cases hmem
  | cons t rest ih =>
    rw [List.map_cons, List.nodup_cons] at hnd
    rcases List.mem_cons.mp hmem with h | h
    · subst h
      rw [indexTasks_cons]
      rw [indexTasks_get_notMem rt rest _ _ (fun u hu he => by
        have : u.type = td.type := compositeKey_inj rt u.type td.type he
        exact hnd.1 (this ▸ List.mem_map_of_mem TaskTypeDefinition.type hu))]
      exact mapGet_mapSet_self m (rt ++ ":" ++ td.type) td
    · rw [indexTasks_cons]
      exact ih _ hnd.2 h

theorem removeTasks_nil (rt : String) (m : List (String × TaskTypeDefinition)) :
    removeTasks rt [] m = m := rfl

theorem removeTasks_cons (rt : String) (t : TaskTypeDefinition)
    (ts : List TaskTypeDefinition) (m : List (String × TaskTypeDefinition)) :
    removeTasks rt (t :: ts) m = removeTasks rt ts (mapDelete m (rt ++ ":" ++ t.type)) := rfl

theorem removeTasks_get_notMem (rt : String) (ts : List TaskTypeDefinition)
    (m : List (String × TaskTypeDefinition)) (key : String)
    (h : ∀ t ∈ ts, key ≠ rt ++ ":" ++ t.type) :
    mapGet (removeTasks rt ts m) key = mapGet m key := by
  induction ts generalizing m with
  | nil => rfl
  | cons t rest ih =>
    rw [removeTasks_cons, ih _ (fun u hu => h u (List.mem_cons_of_mem t hu))]
    exact mapGet_mapDelete_ne m (rt ++ ":" ++ t.type) key
      (h t (List.mem_cons_self t rest))

theorem mapGet_removeTasks_none (rt : String) (ts : List TaskTypeDefinition)
    (m : List (String × TaskTypeDefinition)) (key : String)
    (h : mapGet m key = none) : mapGet (removeTasks rt ts m) key = none := by
  induction ts generalizing m with
  | nil => exact h
  | cons t rest ih =>
    rw [removeTasks_cons]
    refine ih _ ?_
    by_cases hk : key = rt ++ ":" ++ t.type
    · rw [hk]; exact mapGet_mapDelete_self m _
    · rw [mapGet_mapDelete_ne m _ _ hk]; exact h

theorem removeTasks_get_mem (rt : String) (ts : List TaskTypeDefinition)
    (m : List (String × TaskTypeDefinition)) (td : TaskTypeDefinition)
    (hmem : td ∈ ts) : mapGet (removeTasks rt ts m) (rt ++ ":" ++ td.type) = none := by
  induction ts generalizing m with
  | nil => cases hmem
  | cons t rest ih =>
    by_cases hk : rt ++ ":" ++ td.type = rt ++ ":" ++ t.type
    · rw [removeTasks_cons]
      refine mapGet_removeTasks_none rt rest _ _ ?_
      rw [hk]; exact mapGet_mapDelete_self m _
    · rcases List.mem_cons.mp hmem with h | h
      · exact absurd (by rw [h]) hk
      · rw [removeTasks_cons]; exact ih _ h

theorem charsStartWith_refl (l : List Char) : charsStartWith l l = true := by
  induction l with
  | nil => rfl
  | cons c rest ih => simp [charsStartWith, ih]

theorem charsContain_self (l : List Char) : charsContain l l = true := by
  cases l with
  | nil => rfl
  | cons c rest => simp [charsContain, charsStartWith_refl]

theorem charsContain_append (p k : List Char) : charsContain k (p ++ k) = true := by
  induction p with
  | nil => simpa using charsContain_self k
  | cons c rest ih => simp [charsContain, ih]

theorem strContains_append (p k : String) : strContainsSub (p ++ k) k = true := by
  rw [strContainsSub, String.data_append]
  exact charsContain_append p.data k.data

theorem runAsync_trace_mono (kind : String) (payload : JVal) (hs : List EvHandler)
    (tr : List EmitEv) (x : EmitEv) (hx : x ∈ tr) :
    x ∈ (runAsyncHandlers kind payload hs tr).2 := by
  induction hs generalizing tr with
  | nil => exact hx
  | cons h rest ih =>
    rw [runAsyncHandlers]
    cases hb : h.run payload with
    | ret => exact ih _ (List.mem_append_left _ hx)
    | throwSync e => exact List.mem_append_left _ hx
    | rejectAsync e => exact ih _ (List.mem_append_left _ hx)

theorem runAsync_ok (kind : String) (payload : JVal) (hs : List EvHandler)
    (tr : List EmitEv) (hno : ∀ h ∈ hs, (h.run payload).isThrowSync = false) :
    (runAsyncHandlers kind payload hs tr).1 = .ok () ∧
    (∀ h ∈ hs, EmitEv.invoked h.hid ∈ (runAsyncHandlers kind payload hs tr).2) ∧
    (∀ h ∈ hs, ∀ e, h.run payload = .rejectAsync e →
      EmitEv.logged (asyncLogMsg kind) e ∈ (runAsyncHandlers kind payload hs tr).2) := by
  induction hs generalizing tr with
  | nil => exact ⟨rfl, by simp, by simp⟩
  | cons h rest ih =>
    have hhead := hno h (List.mem_cons_self h rest)
    have hrest : ∀ u ∈ rest, (u.run payload).isThrowSync = false :=
      fun u hu => hno u (List.mem_cons_of_mem h hu)
    rw [runAsyncHandlers]
    cases hb : h.run payload with
    | ret =>
      obtain ⟨i1, i2, i3⟩ := ih (tr ++ [EmitEv.invoked h.hid]) hrest
      refine ⟨i1, ?_, ?_⟩
      · intro u hu
        rcases List.mem_cons.mp hu with hul | hur
        · subst hul
          exact runAsync_trace_mono kind payload rest _ _ (by simp)
        · exact i2 u hur
      · intro u hu e hue
        rcases List.mem_cons.mp hu with hul | hur
        · subst hul; rw [hb] at hue; cases hue
        · exact i3 u hur e hue
    | throwSync e => rw [hb] at hhead; cases hhead
    | rejectAsync e0 =>
      obtain ⟨i1, i2, i3⟩ :=
        ih (tr ++ [EmitEv.invoked h.hid, EmitEv.logged (asyncLogMsg kind) e0]) hrest
      refine ⟨i1, ?_, ?_⟩
      · intro u hu
        rcases List.mem_cons.mp hu with hul | hur
        · subst hul
          exact runAsync_trace_mono kind payload rest _ _ (by simp)
        · exact i2 u hur
      · intro u hu e hue
        rcases List.mem_cons.mp hu with hul | hur
        · subst hul
          rw [hb] at hue
          cases hue
          exact runAsync_trace_mono kind payload rest _ _ (by simp)
        · exact i3 u hur e hue

/-! ## Claims -/

/-- C1 (amended): for every registered composite task key and every context,
if the handler's `execute` throws or rejects with an error, `executeTask`
returns `{success:false}` whose error is the exception's message when that
message is nonempty, and the generic fallback `任务执行失败` when the message
is empty (the source computes `error.message || '任务执行失败'`); the call
itself never throws past the registry boundary, which the embedding
expresses by `executeTask` being a total function into `TaskResult`. -/
theorem executeTask_catches_thrown (reg : PluginRegistry) (key : String)
    (ctx : TaskContext) (handler : TaskTypeDefinition) (e : JsError)
    (hh : getTaskHandler reg key = some handler)
    (he : handler.execute ctx = .thrown e) :
    executeTask reg key ctx =
      { success := false, data := none,
        error := some (if e.message = "" then "任务执行失败" else e.message) } := by
  rw [getTaskHandler] at hh
  simp [executeTask, hh, runHandler, he]

/-- C1 witness: the theorem evaluated on a registry whose task throws
an error with message `boom`. -/
theorem executeTask_catches_thrown_witness :
    getTaskHandler regBoom "w:boom" = some boomTask ∧
    boomTask.execute ctx0 = .thrown { message := "boom" } ∧
    executeTask regBoom "w:boom" ctx0 =
      { success := false, data := none, error := some "boom" } := by
  refine ⟨rfl, rfl, ?_⟩
  rw [executeTask_catches_thrown regBoom "w:boom" ctx0 boomTask { message := "boom" }
    rfl rfl]
  rfl

/-- C1 counterexample: a task whose `execute` throws an error whose message
is the empty string.  The claim as stated requires the returned error to
carry the exception's message (the empty string); the code instead returns
the generic fallback `任务执行失败`. -/
theorem executeTask_empty_message_cex :
    emptyMsgTask.execute ctx0 = .thrown { message := "" } ∧
    executeTask regEmptyMsg "w:t" ctx0 =
      { success := false, data := none, error := some "任务执行失败" } ∧
    ("任务执行失败" : String) ≠ "" := by
  refine ⟨rfl, rfl, by decide⟩

/-- C2 (amended): for every task key absent from the task index and every
context, `executeTask` returns `{success:false, error:"未知的任务类型: <taskKey>"}`
(Chinese for "unknown task type: <taskKey>"), whose error embeds the task
key; the result is this constant for every registry lacking the key —
independent of every registered handler's `execute` — which is the
embedding of "does not throw and does not invoke any task's execute".
The error indicates unknown-ness in Chinese (`未知`); it does not contain
the ASCII substring "unknown" claimed by the spec (see the counterexample). -/
theorem executeTask_unknown_key (reg : PluginRegistry) (key : String)
    (ctx : TaskContext) (habs : getTaskHandler reg key = none) :
    executeTask reg key ctx =
      { success := false, data := none, error := some ("未知的任务类型: " ++ key) } ∧
    strContainsSub ("未知的任务类型: " ++ key) key = true := by
  rw [getTaskHandler] at habs
  exact ⟨by simp [executeTask, habs], strContains_append "未知的任务类型: " key⟩

/-- C2 witness: the theorem evaluated on the empty registry and the key
`nope`. -/
theorem executeTask_unknown_key_witness :
    getTaskHandler emptyRegistry "nope" = none ∧
    executeTask emptyRegistry "nope" ctx0 =
      { success := false, data := none, error := some "未知的任务类型: nope" } := by
  exact ⟨rfl, (executeTask_unknown_key emptyRegistry "nope" ctx0 rfl).1⟩

/-- C2 counterexample: at the unknown key `nope` the returned error string
is `未知的任务类型: nope`, which does not contain the substring "unknown"
required by the claim. -/
theorem executeTask_unknown_chinese_cex :
    executeTask emptyRegistry "nope" ctx0 =
      { success := false, data := none, error := some "未知的任务类型: nope" } ∧
    strContainsSub "未知的任务类型: nope" "unknown" = false := by
  exact ⟨rfl, by decide⟩

/-- C4: registering two plugins with the same `resourceType` makes
`getPlugin` return the second one, and for every composite key declared by
both plugins `getTaskHandler` returns the second plugin's task definition.
(`hnd` is the spec's invariant that task `type`s are unique within one
plugin, which makes "B's definition" well defined.) -/
theorem register_replaces_overlapping (reg : PluginRegistry) (A B : ResourcePlugin)
    (ta tb : TaskTypeDefinition)
    (hrt : A.resourceType = B.resourceType)
    (hnd : (B.taskTypes.map TaskTypeDefinition.type).Nodup)
    (hta : ta ∈ A.taskTypes) (htb : tb ∈ B.taskTypes) (htype : ta.type = tb.type) :
    getPlugin (register (register reg A) B) B.resourceType = some B ∧
    getTaskHandler (register (register reg A) B) (B.resourceType ++ ":" ++ tb.type) =
      some tb := by
  constructor
  · rw [getPlugin, register, register]
    exact mapGet_mapSet_self _ B.resourceType B
  · rw [getTaskHandler, register, register]
    exact indexTasks_get_of_mem B.resourceType B.taskTypes _ tb hnd htb

/-- C4 witness: plugins `pA` and `pB` both declare task `t` under resource
type `res`; after registering both, lookups return `pB` and `taskB`. -/
theorem register_replaces_overlapping_witness :
    getPlugin (register (register emptyRegistry pA) pB) pB.resourceType = some pB ∧
    getTaskHandler (register (register emptyRegistry pA) pB)
      (pB.resourceType ++ ":" ++ taskB.type) = some taskB :=
  register_replaces_overlapping emptyRegistry pA pB taskA taskB rfl (by simp [pB])
    (by simp [pA]) (by simp [pB]) rfl

/-- C9: when plugin `A` declares a task type that the replacing plugin `B`
(same `resourceType`) does not declare, the composite key still maps to `A`'s
definition after both registrations: `register` never removes the replaced
plugin's non-overlapping task-index entries, even though `getPlugin` now
returns `B`; `executeTask` on that key dispatches to `A`'s definition. -/
theorem register_keeps_nonoverlapping (reg : PluginRegistry) (A B : ResourcePlugin)
    (ta : TaskTypeDefinition) (ctx : TaskContext)
    (hrt : A.resourceType = B.resourceType)
    (hndA : (A.taskTypes.map TaskTypeDefinition.type).Nodup)
    (hta : ta ∈ A.taskTypes)
    (hB : ∀ tb ∈ B.taskTypes, tb.type ≠ ta.type) :
    getTaskHandler (register (register reg A) B) (A.resourceType ++ ":" ++ ta.type) =
      some ta ∧
    getPlugin (register (register reg A) B) B.resourceType = some B ∧
    executeTask (register (register reg A) B) (A.resourceType ++ ":" ++ ta.type) ctx =
      runHandler ta ctx := by
  have hkey : getTaskHandler (register (register reg A) B)
      (A.resourceType ++ ":" ++ ta.type) = some ta := by
    rw [getTaskHandler, register, register]
    rw [indexTasks_get_notMem B.resourceType B.taskTypes _ _ (fun tb htb he => by
      rw [← hrt] at he
      exact hB tb htb (compositeKey_inj A.resourceType tb.type ta.type he))]
    exact indexTasks_get_of_mem A.resourceType A.taskTypes _ ta hndA hta
  refine ⟨hkey, ?_, ?_⟩
  · rw [getPlugin, register, register]
    exact mapGet_mapSet_self _ B.resourceType B
  · rw [getTaskHandler] at hkey
    simp [executeTask, hkey]

/-- C9 witness: `pA` declares task `t`, `pBu` (same resource type `res`)
declares only task `u`; after both registrations the key `res:t` still
dispatches to `taskA` while `getPlugin` returns `pBu`. -/
theorem register_keeps_nonoverlapping_witness :
    getTaskHandler (register (register emptyRegistry pA) pBu)
      (pA.resourceType ++ ":" ++ taskA.type) = some taskA ∧
    getPlugin (register (register emptyRegistry pA) pBu) pBu.resourceType = some pBu ∧
    executeTask (register (register emptyRegistry pA) pBu)
      (pA.resourceType ++ ":" ++ taskA.type) ctx0 = runHandler taskA ctx0 :=
  register_keeps_nonoverlapping emptyRegistry pA pBu taskA ctx0 rfl (by simp [pA])
    (by simp [pA]) (by simp [pBu, taskU, taskA])

/-- C7: `unregister` on an absent `resourceType` returns `false` and leaves
the registry unchanged (in particular `getAllPlugins` and `getAllTaskTypes`
are unchanged); on a present one it returns `true`, removes the plugin, and
removes exactly the task-index entries whose keys derive from that plugin
(all other task-index entries and plugins are untouched). -/
theorem unregister_semantics (reg : PluginRegistry) (rt : String) :
    (getPlugin reg rt = none →
      unregister reg rt = (false, reg) ∧
      getAllPlugins (unregister reg rt).2 = getAllPlugins reg ∧
      getAllTaskTypes (unregister reg rt).2 = getAllTaskTypes reg) ∧
    (∀ p, getPlugin reg rt = some p →
      (unregister reg rt).1 = true ∧
      getPlugin (unregister reg rt).2 rt = none ∧
      (∀ td ∈ p.taskTypes,
        getTaskHandler (unregister reg rt).2 (rt ++ ":" ++ td.type) = none) ∧
      (∀ key, (∀ td ∈ p.taskTypes, key ≠ rt ++ ":" ++ td.type) →
        getTaskHandler (unregister reg rt).2 key = getTaskHandler reg key) ∧
      (∀ rt2, rt2 ≠ rt → getPlugin (unregister reg rt).2 rt2 = getPlugin reg rt2)) := by
  constructor
  · intro habs
    rw [getPlugin] at habs
    have hu : unregister reg rt = (false, reg) := by rw [unregister, habs]
    exact ⟨hu, by rw [hu], by rw [hu]⟩
  · intro p hp
    rw [getPlugin] at hp
    have hu : unregister reg rt =
        (true,
          { plugins := mapDelete reg.plugins rt
            taskHandlers := removeTasks rt p.taskTypes reg.taskHandlers }) := by
      rw [unregister, hp]
    refine ⟨by rw [hu], ?_, ?_, ?_, ?_⟩
    · rw [hu, getPlugin]
      exact mapGet_mapDelete_self reg.plugins rt
    · intro td htd
      rw [hu, getTaskHandler]
      exact removeTasks_get_mem rt p.taskTypes reg.taskHandlers td htd
    · intro key hkey
      rw [hu, getTaskHandler, getTaskHandler]
      exact removeTasks_get_notMem rt p.taskTypes reg.taskHandlers key hkey
    · intro rt2 hrt2
      rw [hu, getPlugin, getPlugin]
      exact mapGet_mapDelete_ne reg.plugins rt rt2 hrt2

/-- C7 witness: the theorem evaluated on (a) the empty registry with the
absent key `x`, and (b) the registry holding `pA`, whose removal empties the
task index entry `res:t`. -/
theorem unregister_semantics_witness :
    (getPlugin emptyRegistry "x" = none ∧
      unregister emptyRegistry "x" = (false, emptyRegistry)) ∧
    (getPlugin (register emptyRegistry pA) "res" = some pA ∧
      (unregister (register emptyRegistry pA) "res").1 = true ∧
      getTaskHandler (unregister (register emptyRegistry pA) "res").2 "res:t" = none) := by
  refine ⟨⟨rfl, ((unregister_semantics emptyRegistry "x").1 rfl).1⟩, ⟨rfl, ?_, ?_⟩⟩
  · exact (((unregister_semantics (register emptyRegistry pA) "res").2 pA rfl)).1
  · have h := (((unregister_semantics (register emptyRegistry pA) "res").2 pA rfl)).2.2.1
      taskA (by simp [pA])
    simpa using h

/-- C3 (amended): under an external API in which all calls succeed, the
workers creation task run with configuration fields `workerName` and
`script` reports exactly three progress notifications, in order, with
`current` = 1, 2, 3 and `total` = 3 in each, and returns
`{success:true, data:{workerId, versionId, deploymentId, url}}` where `url`
is `https://<workerName>.<subdomain>.workers.dev`, derived deterministically
from the configured name and the account subdomain.  (The claim's field
names `name`/`content`/`id` are `workerName`/`script`/`workerId` in the
code; see the counterexample for the `id` field.) -/
theorem create_worker_orchestration (cfg : WorkersConfig) (api : WorkersApi)
    (wid vid did sub : String)
    (hc : api.createWorker cfg.workerName = .ok wid)
    (hu : api.uploadWorkerScript wid cfg.workerName cfg.script cfg.compatibilityDate
      cfg.bindings = .ok vid)
    (hd : api.deployWorker cfg.workerName vid = .ok did)
    (hs : api.getSubdomain = .ok sub) :
    runTask (createWorkerExecute cfg api) =
      (.ok { success := true
             data := some (.obj
               [("workerId", .str wid), ("versionId", .str vid),
                ("deploymentId", .str did), ("url", .str (workerUrl cfg.workerName sub))])
             error := none },
       [.progress { step := "创建 Worker", current := 1, total := 3 },
        .api (.createWorker cfg.workerName),
        .progress { step := "上传脚本", current := 2, total := 3 },
        .api (.uploadWorkerScript wid cfg.workerName cfg.script cfg.compatibilityDate
          cfg.bindings),
        .progress { step := "部署", current := 3, total := 3 },
        .api (.deployWorker cfg.workerName vid),
        .api .getSubdomain]) := by
  simp [createWorkerExecute, runTask, taskBind_eq, taskPure_eq, tbind, tpure,
    apiCall, updateProgressE, hc, hu, hd, hs]

/-- C3 witness: the amended theorem evaluated on `cfgFoo` and the
all-succeeding API `apiOkW`. -/
theorem create_worker_orchestration_witness :
    runTask (createWorkerExecute cfgFoo apiOkW) =
      (.ok { success := true
             data := some (.obj
               [("workerId", .str "wid-1"), ("versionId", .str "ver-1"),
                ("deploymentId", .str "dep-1"),
                ("url", .str (workerUrl cfgFoo.workerName "acct"))])
             error := none },
       [.progress { step := "创建 Worker", current := 1, total := 3 },
        .api (.createWorker cfgFoo.workerName),
        .progress { step := "上传脚本", current := 2, total := 3 },
        .api (.uploadWorkerScript "wid-1" cfgFoo.workerName cfgFoo.script
          cfgFoo.compatibilityDate cfgFoo.bindings),
        .progress { step := "部署", current := 3, total := 3 },
        .api (.deployWorker cfgFoo.workerName "ver-1"),
        .api .getSubdomain]) :=
  create_worker_orchestration cfgFoo apiOkW "wid-1" "ver-1" "dep-1" "acct"
    rfl rfl rfl rfl

/-- C3 counterexample: the success data of the creation task run at the
concrete configuration `{workerName:"foo", script:"<script>"}` has no `id`
field — its identifier field is named `workerId` — so the claimed result
shape `data:{id, versionId, deploymentId, url}` does not hold. -/
theorem create_worker_id_field_cex :
    (runTask (createWorkerExecute cfgFoo apiOkW)).1 =
      .ok { success := true
            data := some (JVal.obj
              [("workerId", .str "wid-1"), ("versionId", .str "ver-1"),
               ("deploymentId", .str "dep-1"),
               ("url", .str "https://foo.acct.workers.dev")])
            error := none } ∧
    jlookup (JVal.obj
      [("workerId", .str "wid-1"), ("versionId", .str "ver-1"),
       ("deploymentId", .str "dep-1"),
       ("url", .str "https://foo.acct.workers.dev")]) "id" = none ∧
    jlookup (JVal.obj
      [("workerId", .str "wid-1"), ("versionId", .str "ver-1"),
       ("deploymentId", .str "dep-1"),
       ("url", .str "https://foo.acct.workers.dev")]) "workerId" =
      some (.str "wid-1") :=
  ⟨rfl, rfl, rfl⟩

/-- C6: when the configured `workerName` matches no worker returned by the
external list call, the update and delete tasks return
`{success:false, error:"Worker <name> not found"}` and the query task
returns `{success:true, data:{found:false}}`; in all three cases the full
effect trace is one progress report followed by the single `listWorkers`
call, so no mutating external call is made. -/
theorem lookup_then_act_not_found (cfg : WorkersConfig) (api : WorkersApi)
    (ws : List WInfo)
    (hl : api.listWorkers = .ok ws)
    (hn : ∀ w ∈ ws, w.id ≠ cfg.workerName) :
    runTask (updateWorkerExecute cfg api) =
      (.ok { success := false, data := none
             error := some ("Worker " ++ cfg.workerName ++ " not found") },
       [.progress { step := "查找 Worker", current := 1, total := 3 },
        .api .listWorkers]) ∧
    runTask (deleteWorkerExecute cfg api) =
      (.ok { success := false, data := none
             error := some ("Worker " ++ cfg.workerName ++ " not found") },
       [.progress { step := "查找 Worker", current := 1, total := 2 },
        .api .listWorkers]) ∧
    runTask (queryWorkerExecute cfg api) =
      (.ok { success := true, data := some (.obj [("found", .bool false)]), error := none },
       [.progress { step := "查询 Worker", current := 1, total := 2 },
        .api .listWorkers]) := by
  have hfind : ws.find? (fun w => w.id == cfg.workerName) = none :=
    List.find?_eq_none.mpr (fun w hw => by simp [hn w hw])
  refine ⟨?_, ?_, ?_⟩
  · simp [updateWorkerExecute, runTask, taskBind_eq, taskPure_eq, tbind, tpure,
      apiCall, updateProgressE, hl, hfind]
  · simp [deleteWorkerExecute, runTask, taskBind_eq, taskPure_eq, tbind, tpure,
      apiCall, updateProgressE, hl, hfind]
  · simp [queryWorkerExecute, runTask, taskBind_eq, taskPure_eq, tbind, tpure,
      apiCall, updateProgressE, hl, hfind]

/-- C6 witness: the theorem evaluated on `cfgFoo` against an API listing
only the worker `bar`. -/
theorem lookup_then_act_not_found_witness :
    runTask (updateWorkerExecute cfgFoo apiOkW) =
      (.ok { success := false, data := none
             error := some ("Worker " ++ cfgFoo.workerName ++ " not found") },
       [.progress { step := "查找 Worker", current := 1, total := 3 },
        .api .listWorkers]) ∧
    runTask (deleteWorkerExecute cfgFoo apiOkW) =
      (.ok { success := false, data := none
             error := some ("Worker " ++ cfgFoo.workerName ++ " not found") },
       [.progress { step := "查找 Worker", current := 1, total := 2 },
        .api .listWorkers]) ∧
    runTask (queryWorkerExecute cfgFoo apiOkW) =
      (.ok { success := true, data := some (.obj [("found", .bool false)]), error := none },
       [.progress { step := "查询 Worker", current := 1, total := 2 },
        .api .listWorkers]) :=
  lookup_then_act_not_found cfgFoo apiOkW [wBar] rfl (by decide)

/-- C5: a bulk-write or bulk-delete invocation whose serialized
configuration field does not parse as JSON returns
`{success:false, error:"无效的 JSON 格式"}` ("invalid JSON format") with an
empty effect trace: no progress report and zero calls to the external API
capability. -/
theorem bulk_tasks_reject_invalid_json (cfgW : BulkWriteConfig)
    (cfgD : BulkDeleteConfig) (api : KvApi)
    (hw : jsonParse cfgW.kvPairs = none) (hd : jsonParse cfgD.keys = none) :
    runTask (bulkWriteExecute cfgW api) =
      (.ok { success := false, data := none, error := some "无效的 JSON 格式" }, []) ∧
    runTask (bulkDeleteExecute cfgD api) =
      (.ok { success := false, data := none, error := some "无效的 JSON 格式" }, []) := by
  constructor
  · simp [bulkWriteExecute, runTask, taskPure_eq, tpure, hw]
  · simp [bulkDeleteExecute, runTask, taskPure_eq, tpure, hd]

/-- C5 witness: the theorem evaluated on configurations whose serialized
field is the non-JSON string `not json`. -/
theorem bulk_tasks_reject_invalid_json_witness :
    runTask (bulkWriteExecute cfgBadWrite kvApi0) =
      (.ok { success := false, data := none, error := some "无效的 JSON 格式" }, []) ∧
    runTask (bulkDeleteExecute cfgBadDelete kvApi0) =
      (.ok { success := false, data := none, error := some "无效的 JSON 格式" }, []) :=
  bulk_tasks_reject_invalid_json cfgBadWrite cfgBadDelete kvApi0 rfl rfl

/-- C10: when the serialized configuration field parses as JSON but is not
an array (e.g. the string `5`), the bulk tasks do not return the
parse-failure result: they report their progress notification and invoke
the external bulk call with the parsed non-list value — the parse guard
rejects only non-JSON input, not wrongly-shaped JSON. -/
theorem bulk_tasks_accept_nonlist_json (cfgW : BulkWriteConfig)
    (cfgD : BulkDeleteConfig) (api : KvApi) (vW vD : JVal)
    (hw : jsonParse cfgW.kvPairs = some vW) (hwa : vW.isArr = false)
    (hd : jsonParse cfgD.keys = some vD) (hda : vD.isArr = false) :
    ((runTask (bulkWriteExecute cfgW api)).2 =
       [.progress { step := "批量写入 KV", current := 1, total := 1 },
        .api (.bulkWriteKV cfgW.namespaceId vW)] ∧
     (runTask (bulkWriteExecute cfgW api)).1 ≠
       .ok { success := false, data := none, error := some "无效的 JSON 格式" }) ∧
    ((runTask (bulkDeleteExecute cfgD api)).2 =
       [.progress { step := "批量删除 KV", current := 1, total := 1 },
        .api (.bulkDeleteKV cfgD.namespaceId vD)] ∧
     (runTask (bulkDeleteExecute cfgD api)).1 ≠
       .ok { success := false, data := none, error := some "无效的 JSON 格式" }) := by
  constructor
  · cases hres : api.bulkWriteKV cfgW.namespaceId vW with
    | ok u =>
      constructor
      · simp [bulkWriteExecute, runTask, taskBind_eq, taskPure_eq, tbind, tpure,
          apiCall, updateProgressE, hw, hres]
      · simp [bulkWriteExecute, runTask, taskBind_eq, taskPure_eq, tbind, tpure,
          apiCall, updateProgressE, hw, hres]
    | error e =>
      constructor
      · simp [bulkWriteExecute, runTask, taskBind_eq, taskPure_eq, tbind, tpure,
          apiCall, updateProgressE, hw, hres]
      · simp [bulkWriteExecute, runTask, taskBind_eq, taskPure_eq, tbind, tpure,
          apiCall, updateProgressE, hw, hres]
  · cases hres : api.bulkDeleteKV cfgD.namespaceId vD with
    | ok u =>
      constructor
      · simp [bulkDeleteExecute, runTask, taskBind_eq, taskPure_eq, tbind, tpure,
          apiCall, updateProgressE, hd, hres]
      · simp [bulkDeleteExecute, runTask, taskBind_eq, taskPure_eq, tbind, tpure,
          apiCall, updateProgressE, hd, hres]
    | error e =>
      constructor
      · simp [bulkDeleteExecute, runTask, taskBind_eq, taskPure_eq, tbind, tpure,
          apiCall, updateProgressE, hd, hres]
      · simp [bulkDeleteExecute, runTask, taskBind_eq, taskPure_eq, tbind, tpure,
          apiCall, updateProgressE, hd, hres]

/-- C10 witness: the theorem evaluated on configurations whose serialized
field is the JSON number `5` (valid JSON, not a list). -/
theorem bulk_tasks_accept_nonlist_json_witness :
    ((runTask (bulkWriteExecute cfgNumWrite kvApi0)).2 =
       [.progress { step := "批量写入 KV", current := 1, total := 1 },
        .api (.bulkWriteKV cfgNumWrite.namespaceId (.num 5))] ∧
     (runTask (bulkWriteExecute cfgNumWrite kvApi0)).1 ≠
       .ok { success := false, data := none, error := some "无效的 JSON 格式" }) ∧
    ((runTask (bulkDeleteExecute cfgNumDelete kvApi0)).2 =
       [.progress { step := "批量删除 KV", current := 1, total := 1 },
        .api (.bulkDeleteKV cfgNumDelete.namespaceId (.num 5))] ∧
     (runTask (bulkDeleteExecute cfgNumDelete kvApi0)).1 ≠
       .ok { success := false, data := none, error := some "无效的 JSON 格式" }) :=
  bulk_tasks_accept_nonlist_json cfgNumWrite cfgNumDelete kvApi0 (.num 5) (.num 5)
    rfl rfl rfl rfl

theorem runSync_trace_mono (payload : JVal) (hs : List EvHandler)
    (tr : List EmitEv) (x : EmitEv) (hx : x ∈ tr) :
    x ∈ (runSyncHandlers payload hs tr).2 := by
  induction hs generalizing tr with
  | nil => exact hx
  | cons h rest ih =>
    rw [runSyncHandlers]
    cases hb : h.run payload with
    | ret => exact ih _ (List.mem_append_left _ hx)
    | throwSync e => exact List.mem_append_left _ hx
    | rejectAsync e => exact ih _ (List.mem_append_left _ hx)

theorem runSync_ok (payload : JVal) (hs : List EvHandler) (tr : List EmitEv)
    (hno : ∀ h ∈ hs, (h.run payload).isThrowSync = false) :
    (runSyncHandlers payload hs tr).1 = .ok () ∧
    ∀ h ∈ hs, EmitEv.invoked h.hid ∈ (runSyncHandlers payload hs tr).2 := by
  induction hs generalizing tr with
  | nil => exact ⟨rfl, by simp⟩
  | cons h rest ih =>
    have hhead := hno h (List.mem_cons_self h rest)
    have hrest : ∀ u ∈ rest, (u.run payload).isThrowSync = false :=
      fun u hu => hno u (List.mem_cons_of_mem h hu)
    rw [runSyncHandlers]
    cases hb : h.run payload with
    | ret =>
      obtain ⟨i1, i2⟩ := ih (tr ++ [EmitEv.invoked h.hid]) hrest
      refine ⟨i1, fun u hu => ?_⟩
      rcases List.mem_cons.mp hu with hul | hur
      · subst hul
        exact runSync_trace_mono payload rest _ _ (by simp)
      · exact i2 u hur
    | throwSync e => rw [hb] at hhead; cases hhead
    | rejectAsync e =>
      obtain ⟨i1, i2⟩ := ih (tr ++ [EmitEv.invoked h.hid]) hrest
      refine ⟨i1, fun u hu => ?_⟩
      rcases List.mem_cons.mp hu with hul | hur
      · subst hul
        exact runSync_trace_mono payload rest _ _ (by simp)
      · exact i2 u hur

/-- C8 (amended): provided no registered handler for the kind throws
synchronously (synchronous-listener throws propagate by design, and a
detached handler that throws synchronously escapes
`Promise.resolve(handler(payload)).catch` before the catch attaches — see
the counterexample), `emit` returns normally, every synchronous and every
detached handler registered for the kind is invoked, and the failure of
every detached handler that rejects asynchronously is caught and logged,
never surfaced to the caller of `emit`. -/
theorem emit_detached_isolation (bus : EventBus) (kind : String) (payload : JVal)
    (hsync : ∀ h ∈ busHandlers bus.syncListeners kind,
      (h.run payload).isThrowSync = false)
    (hasync : ∀ h ∈ busHandlers bus.asyncHandlers kind,
      (h.run payload).isThrowSync = false) :
    (emitBus bus kind payload).1 = .ok () ∧
    (∀ h ∈ busHandlers bus.syncListeners kind,
      EmitEv.invoked h.hid ∈ (emitBus bus kind payload).2) ∧
    (∀ h ∈ busHandlers bus.asyncHandlers kind,
      EmitEv.invoked h.hid ∈ (emitBus bus kind payload).2) ∧
    (∀ h ∈ busHandlers bus.asyncHandlers kind, ∀ e,
      h.run payload = .rejectAsync e →
      EmitEv.logged (asyncLogMsg kind) e ∈ (emitBus bus kind payload).2) := by
  obtain ⟨s1, s2⟩ :=
    runSync_ok payload (busHandlers bus.syncListeners kind) [] hsync
  have hsplit : runSyncHandlers payload (busHandlers bus.syncListeners kind) [] =
      (Except.ok (),
        (runSyncHandlers payload (busHandlers bus.syncListeners kind) []).2) := by
    rw [← s1]
  have hemit : emitBus bus kind payload =
      runAsyncHandlers kind payload (busHandlers bus.asyncHandlers kind)
        (runSyncHandlers payload (busHandlers bus.syncListeners kind) []).2 := by
    rw [emitBus, hsplit]
  obtain ⟨a1, a2, a3⟩ :=
    runAsync_ok kind payload (busHandlers bus.asyncHandlers kind)
      (runSyncHandlers payload (busHandlers bus.syncListeners kind) []).2 hasync
  refine ⟨by rw [hemit]; exact a1, ?_, ?_, ?_⟩
  · intro h hh
    rw [hemit]
    exact runAsync_trace_mono kind payload _ _ _ (s2 h hh)
  · intro h hh
    rw [hemit]
    exact a2 h hh
  · intro h hh e he
    rw [hemit]
    exact a3 h hh e he

/-- C8 witness: the theorem evaluated on a bus with one synchronous handler
and two detached handlers, one of which rejects with `bad`. -/
theorem emit_detached_isolation_witness :
    (emitBus busW "job:created" JVal.null).1 = .ok () ∧
    (∀ h ∈ busHandlers busW.syncListeners "job:created",
      EmitEv.invoked h.hid ∈ (emitBus busW "job:created" JVal.null).2) ∧
    (∀ h ∈ busHandlers busW.asyncHandlers "job:created",
      EmitEv.invoked h.hid ∈ (emitBus busW "job:created" JVal.null).2) ∧
    (∀ h ∈ busHandlers busW.asyncHandlers "job:created", ∀ e,
      h.run JVal.null = .rejectAsync e →
      EmitEv.logged (asyncLogMsg "job:created") e ∈
        (emitBus busW "job:created" JVal.null).2) :=
  emit_detached_isolation busW "job:created" JVal.null (by decide) (by decide)

/-- C8 counterexample: a detached handler (identity 1) that throws
synchronously is not contained: `emit` propagates the error `boom` to its
caller, no failure is logged, and the other detached handler (identity 2)
registered for the kind is never invoked — refuting the claim that any
detached failure is caught and logged with every other handler still run. -/
theorem emit_sync_throw_escapes_cex :
    emitBus busCex "job:created" JVal.null =
      (.error { message := "boom" }, [EmitEv.invoked 1]) ∧
    EmitEv.invoked 2 ∉ [EmitEv.invoked 1] ∧
    (∀ e, EmitEv.logged (asyncLogMsg "job:created") e ∉ [EmitEv.invoked 1]) :=
  ⟨rfl, by decide, fun e => by simp⟩
